import Mathlib

/-!
# RedactAI — verification of the redaction pipeline core

Shallow embedding of the RedactAI repository's core
(`src/tools/data_processor.py`, `src/tools/ollama_llm.py`,
`src/tools/pdf_redactor.py`, `src/tools/pdf_extractor.py`, and the
override/flow logic of `src/server.py`), together with theorems settling
the specification claims.

Python strings are modelled as `List Char` (`Str`); Python slicing
`s[:2]` / `s[-2:]` becomes `List.take 2` / `List.drop (length - 2)`, and
Python's `'*' * n`, which yields `""` for negative `n`, matches
`List.replicate` under truncated `Nat` subtraction.
-/

namespace RedactAI

/-- Python strings, modelled character by character. -/
abbrev Str := List Char

/-! ## Masking Reporter — `data_processor.mask_sensitive_data` -/

/-- The partial-mask pattern used by the source for both the email local
part and the domain second-level name (`data_processor.py` lines 57-60 and
65-68): all asterisks when the piece has length ≤ 2, otherwise first two
characters followed by asterisks. -/
def maskPart (s : Str) : Str :=
  if s.length ≤ 2 then List.replicate s.length '*'
  else s.take 2 ++ List.replicate (s.length - 2) '*'

/-- `value.split('@', 1)[0]`: the part before the first `'@'`. -/
def usernameOf (v : Str) : Str := v.takeWhile (fun c => c ≠ '@')

/-- `value.split('@', 1)[1]`: the part after the first `'@'` (the email
path is only entered when `'@' ∈ v`, so the separator is present). -/
def domainOf (v : Str) : Str := (v.dropWhile (fun c => c ≠ '@')).drop 1

/-- `domain.rsplit('.', 1)[1]` when the domain contains a dot: the part
after the last `'.'`. -/
def tldOf (d : Str) : Str := (d.reverse.takeWhile (fun c => c ≠ '.')).reverse

/-- `domain.rsplit('.', 1)[0]` when the domain contains a dot: the part
before the last `'.'`. -/
def domainNameOf (d : Str) : Str :=
  ((d.reverse.dropWhile (fun c => c ≠ '.')).drop 1).reverse

/-- The body of the email-specific `try` block (`data_processor.py`
lines 56-71).  `len(domain_parts) == 2` after `domain.rsplit('.', 1)`
holds exactly when the domain contains a `'.'`. -/
def maskEmail (v : Str) : Str :=
  if '.' ∈ domainOf v then
    maskPart (usernameOf v) ++
      '@' :: (maskPart (domainNameOf (domainOf v)) ++ '.' :: tldOf (domainOf v))
  else
    maskPart (usernameOf v) ++ '@' :: ((domainOf v).take 2 ++ ['*', '*', '*'])

/-- `value[:2] + '*' * (len(value) - 4) + value[-2:]` — the expression used
both in the `except` handler of the email path (line 73) and in the
generic > 4 branch (line 79).  Truncated `Nat` subtraction matches
Python's `'*' * n == ''` for negative `n`. -/
def exceptFallback (v : Str) : Str :=
  v.take 2 ++ List.replicate (v.length - 4) '*' ++ v.drop (v.length - 2)

/-- Per-value masking step of `mask_sensitive_data` (lines 49-79).
The `emailRaises` oracle records whether an exception interrupts the
email-specific `try` block (the bare `except:` there catches every
exception, including asynchronous ones); `emailRaises = false` is the
normal run. -/
def maskValueE (emailRaises : Bool) (v : Str) : Str :=
  if v.length < 3 then v
  else if '@' ∈ v ∧ '.' ∈ v then
    (if emailRaises then exceptFallback v else maskEmail v)
  else if v.length ≤ 4 then List.replicate v.length '*'
  else exceptFallback v

/-- Per-value masking on the normal (exception-free) run. -/
def maskValue : Str → Str := maskValueE false

/-- `mask_sensitive_data` (lines 33-85): mask every value in every
category, keeping the category keys. -/
def mask_sensitive_data (m : List (String × List Str)) : List (String × List Str) :=
  m.map (fun p => (p.1, p.2.map maskValue))

/-- The generic masking rule exactly as the specification words it
(all asterisks for length ≤ 4, first two / last two with an exact-length
gap otherwise); used to compare the code's `except` fallback against the
spec's claim. -/
def genericRuleSpec (v : Str) : Str :=
  if v.length ≤ 4 then List.replicate v.length '*'
  else v.take 2 ++ List.replicate (v.length - 4) '*' ++ v.drop (v.length - 2)

example : maskValue "1234567890".toList = "12******90".toList := by decide
example : maskValue "ab".toList = "ab".toList := by decide
example : maskValue "abc".toList = "***".toList := by decide
example : maskValue "jane@example.com".toList = "ja**@ex*****.com".toList := by decide
example : maskValue "@.ab".toList = "@.ab".toList := by decide
example : maskValueE true "a@.b".toList = "a@.b".toList := by decide

/-! ## Sensitive-Span Detector — `ollama_llm.OllamaLLM` -/

/-- Python values a parsed JSON object can hold (`json.loads` output).
`jnum` covers Python `int`; `float` behaves identically under the
validation filter and coercion and is not modelled separately.  Note that
in Python `isinstance(True, int)` holds, so `jbool` counts as numeric for
the `isinstance(item, (str, int, float))` test. -/
inductive J where
  | jnull
  | jbool (b : Bool)
  | jnum (n : Int)
  | jstr (s : String)
  | jarr (items : List J)
  | jobj (fields : List (String × J))
deriving Repr

/-- Python truthiness (`if item`) for parsed JSON values. -/
def J.truthy : J → Bool
  | .jnull => false
  | .jbool b => b
  | .jnum n => n != 0
  | .jstr s => s ≠ ""
  | .jarr l => !l.isEmpty
  | .jobj f => !f.isEmpty

/-- `isinstance(item, (str, int, float))` — booleans qualify because
Python's `bool` is a subclass of `int`. -/
def J.isPrimitive : J → Bool
  | .jstr _ => true
  | .jnum _ => true
  | .jbool _ => true
  | _ => false

/-- `str(item)` for the values the validation filter keeps. -/
def J.pyStr : J → String
  | .jstr s => s
  | .jnum n => toString n
  | .jbool b => if b then "True" else "False"
  | _ => ""

/-- The fixed category schema (`ollama_llm.py` lines 192-195). -/
def required_keys : List String :=
  ["names", "emails", "phones", "addresses", "ids",
   "cards", "dobs", "medical", "financial", "other_pii"]

/-- `data.get(key, [])` on a parsed JSON object (first binding wins, as
Python dict keys are unique). -/
def jget (data : List (String × J)) (k : String) : J :=
  match data.find? (fun p => p.1 = k) with
  | some p => p.2
  | none => J.jarr []

/-- The per-key body of `_validate_structure` (lines 199-209): lists are
filtered to truthy `str`/`int`/`float` entries coerced with `str(...)`;
a non-list is wrapped only when it is a non-empty string, and replaced by
`[]` otherwise. -/
def validateValue : J → List String
  | J.jarr items => (items.filter (fun it => it.truthy && it.isPrimitive)).map J.pyStr
  | J.jstr s => if s ≠ "" then [s] else []
  | _ => []

/-- `_validate_structure` (lines 188-211): exactly the ten required keys,
in their fixed order; unknown keys of `data` are dropped. -/
def validate_structure (data : List (String × J)) : List (String × List String) :=
  required_keys.map (fun k => (k, validateValue (jget data k)))

/-- `_empty_structure` (lines 213-226). -/
def empty_structure : List (String × List String) :=
  required_keys.map (fun k => (k, []))

/-- Outcome of the parse-attempt cascade in `_extract_and_fix_json`
(lines 120-166).  The regex/repair attempts themselves operate on raw
response text; what the cascade can end in is: every attempt failed (no
JSON found, a decode error, or any other exception), a parse succeeding
on a non-`dict` value, or a parse succeeding on a `dict`. -/
inductive ParseOutcome where
  | parseFail
  | parsedNonObj
  | parsedObj (fields : List (String × J))

/-- `_extract_and_fix_json`, abstracted over the outcome of its parse
cascade: every failing arm (lines 144-146, 156-158, 160-166) returns
`_empty_structure`, and a parsed `dict` is validated (lines 130, 155). -/
def extract_and_fix_json : ParseOutcome → List (String × List String)
  | .parseFail => empty_structure
  | .parsedNonObj => empty_structure
  | .parsedObj f => validate_structure f

/-- The `response` field of a 200 reply (`result.get("response", "")`,
line 98): already a JSON object (line 101), a string handed to the parse
cascade (line 105), or some other value — on which `_extract_and_fix_json`
raises at `response_text.strip()` and its `except Exception` arm returns
the empty structure. -/
inductive RespField where
  | dictResp (fields : List (String × J))
  | textResp (parsed : ParseOutcome)
  | otherResp

/-- How the single `requests.post` call of `get_sensitive_data` ends
(lines 85-117): a timeout, a connection-level error, any other exception
(e.g. `response.json()` failing), or an HTTP reply with a status code and
a `response` field. -/
inductive LLMOutcome where
  | timeout
  | requestError
  | unexpectedError
  | httpResponse (status : Nat) (resp : RespField)

/-- `OllamaLLM.get_sensitive_data` (lines 75-117) as a function of how
its network call ends.  The function is total: no branch raises. -/
def get_sensitive_data : LLMOutcome → List (String × List String)
  | .timeout => empty_structure
  | .requestError => empty_structure
  | .unexpectedError => empty_structure
  | .httpResponse status resp =>
    if status ≠ 200 then empty_structure
    else
      match resp with
      | .dictResp f => validate_structure f
      | .textResp p => extract_and_fix_json p
      | .otherResp => empty_structure

/-- The failure conditions enumerated by the spec: all parse attempts
fail, endpoint unreachable, timeout, non-200 status, or a parsed value
that is not an object. -/
def isFailureOutcome : LLMOutcome → Bool
  | .timeout => true
  | .requestError => true
  | .unexpectedError => true
  | .httpResponse status resp =>
    status != 200 ||
      (match resp with
       | .textResp .parseFail => true
       | .textResp .parsedNonObj => true
       | .otherResp => true
       | _ => false)

example : get_sensitive_data .timeout = empty_structure := by decide
example : validate_structure [("names", J.jstr "Jane"), ("junk", J.jstr "x")]
    = [("names", ["Jane"]), ("emails", []), ("phones", []), ("addresses", []),
       ("ids", []), ("cards", []), ("dobs", []), ("medical", []),
       ("financial", []), ("other_pii", [])] := by decide
example : validateValue (J.jarr [J.jstr "", J.jnum 0, J.jnum 7, J.jstr "a", J.jnull])
    = ["7", "a"] := by decide
example : validateValue (J.jnum 5) = [] := by decide

/-! ## Value Normalizer — `data_processor.post_process_sensitive_data` -/

/-- The dedup loop of `post_process_sensitive_data` (lines 23-28):
`if val and val not in seen: seen.add(val); unique_values.append(val)`.
The `seen` set is carried explicitly; falsy (empty) values are skipped
and are not added to `seen`, exactly as in the source. -/
def dedupeKeep (seen : List String) : List String → List String
  | [] => []
  | v :: rest =>
    if v ≠ "" ∧ v ∉ seen then v :: dedupeKeep (v :: seen) rest
    else dedupeKeep seen rest

/-- `post_process_sensitive_data` (lines 7-30): concatenate every
category's value list in iteration order (every value of a validated
CategoryMap is a list, so the `isinstance(values, list)` guard always
passes), then deduplicate keeping first occurrences. -/
def post_process_sensitive_data (m : List (String × List String)) : List String :=
  dedupeKeep [] (m.map Prod.snd).flatten

example : post_process_sensitive_data
    [("names", ["Jane Doe", "Jane Doe"]), ("emails", ["a@b.c"]),
     ("phones", ["", "a@b.c", "555"])]
    = ["Jane Doe", "a@b.c", "555"] := by decide

/-! ## User overrides — `server.redact_pdf_custom`, lines 749-765 -/

/-- Python's `str.lower()`, modelled as character-wise lowercasing. -/
def pyLower (s : String) : String := String.mk (s.data.map Char.toLower)

/-- The exclusion pass (lines 753-757): when `exclude_items` is
non-empty, keep only the values whose lowercase form is not among the
lowercased exclusions. -/
def after_exclude (values exclude : List String) : List String :=
  if exclude = [] then values
  else values.filter (fun v => !(exclude.map pyLower).contains (pyLower v))

/-- The full override pass (lines 753-765): exclusion, then each
`include_items` entry is appended when it is non-empty (`if item`) and
not already present under exact, case-sensitive membership
(`item not in sensitive_values`). -/
def apply_overrides (values exclude includes : List String) : List String :=
  includes.foldl
    (fun acc item => if item ≠ "" ∧ item ∉ acc then acc ++ [item] else acc)
    (after_exclude values exclude)

example : apply_overrides ["John Doe", "x"] ["JOHN DOE"] ["Google", "x", "Google"]
    = ["x", "Google"] := by decide
example : apply_overrides ["A"] [] ["a"] = ["A", "a"] := by decide
example : apply_overrides [] [] [""] = [] := by decide

/-! ## Redaction Engine — `pdf_redactor.apply_redactions` -/

/-- A bounding region returned by PyMuPDF's positional search. -/
structure Rect where
  x0 : Int
  y0 : Int
  x1 : Int
  y1 : Int
deriving DecidableEq, Repr

/-- A page, modelled by its positional-search index: `searchFor`
returns the bounding boxes of every exact visual occurrence of a string
(PyMuPDF `page.search_for`). -/
structure Page where
  occurrences : List (String × List Rect)
deriving DecidableEq, Repr

/-- `page.search_for(s)`: all occurrence boxes of `s`, `[]` when the
string does not occur on the page. -/
def Page.searchFor (p : Page) (s : String) : List Rect :=
  match p.occurrences.find? (fun q => q.1 = s) with
  | some q => q.2
  | none => []

/-- What one page accumulates in `apply_redactions` (lines 32-55):
highlight annotations added to the preview copy, pending redaction
annotations added to the removal copy, and the page's
`number_of_redactions` counter. -/
structure PageResult where
  highlights : List Rect
  redactions : List Rect
  count : Nat
deriving DecidableEq, Repr

/-- One iteration of the inner literal loop (lines 38-55): skip a falsy
or shorter-than-2 literal; otherwise each search hit adds one highlight
annotation to the preview copy and one pending redaction annotation to
the removal copy at the same region, and the counter grows by the number
of hits (`if text_instances:` merely skips a `+= 0`). -/
def redactStep (p : Page) (acc : PageResult) (v : String) : PageResult :=
  if v = "" ∨ v.length < 2 then acc
  else
    { highlights := acc.highlights ++ p.searchFor v
      redactions := acc.redactions ++ p.searchFor v
      count := acc.count + (p.searchFor v).length }

/-- The full literal loop for one page. -/
def redactPage (p : Page) (values : List String) : PageResult :=
  values.foldl (redactStep p) ⟨[], [], 0⟩

/-- All occurrence boxes a page contributes: those of the literals of
length at least 2, in literal order. -/
def pageHits (p : Page) (values : List String) : List Rect :=
  ((values.filter (fun v => 2 ≤ v.length)).map p.searchFor).flatten

/-- `apply_redactions` (lines 10-64): process every page (the two copies
opened from the same source have the same pages, traversed in `zip`),
then total the per-page counters. -/
def apply_redactions (doc : List Page) (values : List String) :
    List PageResult × Nat :=
  let results := doc.map (fun p => redactPage p values)
  (results, (results.map PageResult.count).foldl (· + ·) 0)

/-! ## Text Extractor — `pdf_extractor.get_pdf_text` -/

/-- The state of the source passed to `get_pdf_text`: the path does not
exist, `fitz.open` raises (unparseable file), or a document whose pages
each either yield text or raise inside `page.get_text()`. -/
inductive PdfSource where
  | missing
  | unopenable
  | document (pages : List (Option String))

/-- How `get_pdf_text` ends. -/
inductive ExtractOutcome where
  | notFound
  | wrapped
  | fullText (t : String)
  | pageTexts (ts : List String)
deriving DecidableEq, Repr

/-- The observable trace of one `get_pdf_text` call: its outcome,
whether `fitz.open` succeeded, and whether `doc.close()` ran. -/
structure ExtractTrace where
  result : ExtractOutcome
  opened : Bool
  closed : Bool
deriving DecidableEq, Repr

/-- The page loop (lines 29-37): texts in page order, stopping at the
first page whose `get_text` raises. -/
def extractPages : List (Option String) → Option (List String)
  | [] => some []
  | some t :: rest => (extractPages rest).map (t :: ·)
  | none :: _ => none

/-- `get_pdf_text` (lines 8-42).  A missing path raises
`FileNotFoundError` before any document is opened; `fitz.open` or
`page.get_text` failures hit the `except` arm, which re-raises a wrapped
`Exception("Error processing PDF: ...")` — with no `finally`, so
`doc.close()` (lines 32 / 38) runs only on the successful paths. -/
def get_pdf_text (src : PdfSource) (page_chunks : Bool) : ExtractTrace :=
  match src with
  | .missing => ⟨.notFound, false, false⟩
  | .unopenable => ⟨.wrapped, false, false⟩
  | .document pages =>
    match extractPages pages with
    | none => ⟨.wrapped, true, false⟩
    | some ts =>
      ⟨if page_chunks then .pageTexts ts else .fullText (String.join ts),
       true, true⟩

example : get_pdf_text (.document [some "a", none, some "b"]) false
    = ⟨.wrapped, true, false⟩ := by decide
example : get_pdf_text (.document [some "a", some "b"]) false
    = ⟨.fullText "ab", true, true⟩ := by decide

/-! ## `server.redact_pdf` after detection (lines 511-560) -/

/-- The protocol-level shape of `redact_pdf`'s JSON reply: the `status`
field when present, the `error` field when present, `total_redactions`
when computed, and the artifact paths written. -/
structure RedactResponse where
  status : Option String
  error : Option String
  totalRedactions : Option Nat
  artifactsWritten : List String
deriving DecidableEq, Repr

/-- `redact_pdf` from the detection call onward (lines 513-560):
the "LLM returned empty result" guard fires only on an empty `dict`
(line 516, `len(sensitive_data) == 0`); an all-empty CategoryMap returns
status `"no_sensitive_data"` (line 526); so does an empty flattened list
(line 549); otherwise `apply_redactions` runs, both artifacts are
written, and `total_redactions` is reported. -/
def redact_pdf_after_detection (sensitive_data : List (String × List String))
    (doc : List Page) : RedactResponse :=
  if sensitive_data.length = 0 then
    { status := none, error := some "LLM failed to analyze the document",
      totalRedactions := none, artifactsWritten := [] }
  else if sensitive_data.all (fun p => p.2.length = 0) then
    { status := some "no_sensitive_data", error := none,
      totalRedactions := none, artifactsWritten := [] }
  else
    let values := post_process_sensitive_data sensitive_data
    if values.length = 0 then
      { status := some "no_sensitive_data", error := none,
        totalRedactions := none, artifactsWritten := [] }
    else
      { status := some "success", error := none,
        totalRedactions := some (apply_redactions doc values).2,
        artifactsWritten := ["_redacted.pdf", "_highlighted.pdf"] }

example : redact_pdf_after_detection (get_sensitive_data .timeout) []
    = { status := some "no_sensitive_data", error := none,
        totalRedactions := none, artifactsWritten := [] } := by decide

/-! ## Supporting lemmas for the Masking Reporter -/

lemma star_mem_maskPart (s : Str) (hs : s ≠ []) : '*' ∈ maskPart s := by
  unfold maskPart
  split
  · exact List.mem_replicate.2 ⟨(List.length_pos.2 hs).ne', rfl⟩
  · next h =>
    exact List.mem_append_right _ (List.mem_replicate.2 ⟨by omega, rfl⟩)

lemma usernameOf_ne_nil (v : Str) (hv : v ≠ []) (ha : v.take 1 ≠ ['@']) :
    usernameOf v ≠ [] := by
  match v, hv with
  | c :: rest, _ =>
    have hc : c ≠ '@' := by
      intro h; subst h; exact ha rfl
    simp [usernameOf, List.takeWhile_cons, hc]

/-- On any value of length ≥ 3 that does not start with `'@'`, the mask
always contains at least one asterisk. -/
lemma star_mem_maskValue (v : Str) (h3 : 3 ≤ v.length) (ha : v.take 1 ≠ ['@']) :
    '*' ∈ maskValue v := by
  have hv : v ≠ [] := by
    intro h; subst h; simp at h3
  unfold maskValue maskValueE
  rw [if_neg (by omega)]
  by_cases hem : '@' ∈ v ∧ '.' ∈ v
  · rw [if_pos hem, if_neg Bool.false_ne_true]
    have hu := star_mem_maskPart (usernameOf v) (usernameOf_ne_nil v hv ha)
    unfold maskEmail
    split
    · exact List.mem_append_left _ hu
    · exact List.mem_append_left _ hu
  · rw [if_neg hem]
    by_cases h4 : v.length ≤ 4
    · rw [if_pos h4]
      exact List.mem_replicate.2 ⟨by omega, rfl⟩
    · rw [if_neg h4]
      unfold exceptFallback
      exact List.mem_append_left _
        (List.mem_append_right _ (List.mem_replicate.2 ⟨by omega, rfl⟩))

/-! ## Claim C1 — the masked form never equals the original -/

/-- C1 (counterexample): the claim fails as stated.  The value `"ab"` has
length ≥ 1, yet `mask_sensitive_data` passes every string of length < 3
through unchanged, so the masked report contains the full original
value. -/
theorem c1_short_value_leaks_counterexample :
    (1 ≤ ("ab".toList : Str).length) ∧
      maskValue "ab".toList = "ab".toList ∧
      mask_sensitive_data [("names", ["ab".toList])]
        = [("names", ["ab".toList])] := by decide

/-- C1 (amended): for every CategoryMap and every string value `v` of
length at least 3 in it that contains no asterisk and does not start with
`'@'`, the masked form produced by the Masking Reporter
(`mask_sensitive_data`) is never equal to the original value `v`. -/
theorem c1_mask_never_equals_original_amended
    (m : List (String × List Str)) (cat : String) (vs : List Str) (v : Str)
    (hm : (cat, vs) ∈ m) (hv : v ∈ vs) (h3 : 3 ≤ v.length)
    (hs : '*' ∉ v) (ha : v.take 1 ≠ ['@']) :
    (cat, vs.map maskValue) ∈ mask_sensitive_data m ∧
      maskValue v ∈ vs.map maskValue ∧ maskValue v ≠ v := by
  refine ⟨List.mem_map_of_mem _ hm, List.mem_map_of_mem _ hv, ?_⟩
  intro heq
  exact hs (heq ▸ star_mem_maskValue v h3 ha)

/-- C1 (witness): the amended theorem applied at a concrete input. -/
theorem c1_mask_never_equals_original_witness :
    maskValue "Jane".toList ≠ "Jane".toList :=
  (c1_mask_never_equals_original_amended [("names", ["Jane".toList])] "names"
    ["Jane".toList] "Jane".toList (by simp) (by simp) (by decide) (by decide)
    (by decide)).2.2

/-! ## Claim C3 — the shape of the generic masking rule -/

/-- C3 (counterexample): the claim fails as stated.  `"ok"` has length
≤ 4, but its masked form is not a string of asterisks — values shorter
than 3 characters pass through unchanged. -/
theorem c3_generic_mask_counterexample :
    (("ok".toList : Str).length ≤ 4) ∧
      maskValue "ok".toList ≠ List.replicate ("ok".toList : Str).length '*' ∧
      maskValue "ok".toList = "ok".toList := by decide

/-- C3 (amended): for every string value of length at least 3 that does
not contain both `'@'` and `'.'` (i.e. that does not enter the
email-specific path): if its length is at most 4 the masked form is all
asterisks of the same length, and if its length exceeds 4 the first two
and last two characters are kept verbatim around exactly
`length - 4` asterisks. -/
theorem c3_generic_mask_amended (v : Str) (h3 : 3 ≤ v.length)
    (hne : ¬('@' ∈ v ∧ '.' ∈ v)) :
    (v.length ≤ 4 → maskValue v = List.replicate v.length '*') ∧
      (4 < v.length →
        maskValue v = v.take 2 ++ List.replicate (v.length - 4) '*' ++
          v.drop (v.length - 2)) := by
  constructor
  · intro h4
    unfold maskValue maskValueE
    rw [if_neg (by omega), if_neg hne, if_pos h4]
  · intro h4
    unfold maskValue maskValueE exceptFallback
    rw [if_neg (by omega), if_neg hne, if_neg (by omega)]

/-- C3 (witness): the amended theorem applied at a concrete input. -/
theorem c3_generic_mask_witness :
    maskValue "hello".toList = "hello".toList.take 2 ++
      List.replicate ("hello".toList.length - 4) '*' ++
      "hello".toList.drop ("hello".toList.length - 2) :=
  (c3_generic_mask_amended "hello".toList (by decide) (by decide)).2 (by decide)

/-! ## Claim C4 — the email-path exception fallback -/

/-- C4 (counterexample): the claim fails as stated.  `"a@.b"` enters the
email path (it contains `'@'` and `'.'`); if an exception interrupts that
path the handler produces `value[:2] + '' + value[-2:] = "a@.b"` — the
full original value — whereas the generic rule for a length-4 string is
`"****"`. -/
theorem c4_email_fallback_counterexample :
    ('@' ∈ ("a@.b".toList : Str) ∧ '.' ∈ ("a@.b".toList : Str)) ∧
      maskValueE true "a@.b".toList = "a@.b".toList ∧
      maskValueE true "a@.b".toList ≠ genericRuleSpec "a@.b".toList := by decide

/-- C4 (amended): when an exception interrupts the email-specific path,
the Masking Reporter does not propagate it (the function still returns a
value), and the resulting masked form is the first-two/last-two formula
`value[:2] + '*' * (length - 4) + value[-2:]` — which coincides with the
generic masking rule exactly when the value is longer than 4 characters,
not for length-3/4 values. -/
theorem c4_email_fallback_amended (v : Str) (h3 : 3 ≤ v.length)
    (hem : '@' ∈ v ∧ '.' ∈ v) :
    maskValueE true v = exceptFallback v ∧
      (4 < v.length → maskValueE true v = genericRuleSpec v) := by
  have h1 : maskValueE true v = exceptFallback v := by
    unfold maskValueE
    rw [if_neg (by omega), if_pos hem, if_pos rfl]
  refine ⟨h1, fun h4 => ?_⟩
  rw [h1]
  unfold genericRuleSpec exceptFallback
  rw [if_neg (by omega)]

/-- C4 (witness): the amended theorem applied at a concrete input. -/
theorem c4_email_fallback_witness :
    maskValueE true "jo@ex.com".toList = genericRuleSpec "jo@ex.com".toList :=
  (c4_email_fallback_amended "jo@ex.com".toList (by decide) (by decide)).2
    (by decide)

/-! ## Claim C2 — detection failure always yields the empty CategoryMap -/

/-- C2 (confirmed): `get_sensitive_data` never raises (it is a total
function of its network outcome), and on every failure condition — all
parse attempts failing, an unreachable endpoint, a timeout, a non-200
status, or a final parsed value that is not an object — it returns the
canonical empty CategoryMap, in which all ten fixed keys are present and
each maps to an empty sequence. -/
theorem c2_detector_failure_returns_empty (o : LLMOutcome)
    (h : isFailureOutcome o = true) :
    get_sensitive_data o = empty_structure ∧
      empty_structure.map Prod.fst = required_keys ∧
      ∀ p ∈ empty_structure, p.2 = ([] : List String) := by
  refine ⟨?_, by decide, by decide⟩
  cases o with
  | timeout => rfl
  | requestError => rfl
  | unexpectedError => rfl
  | httpResponse status resp =>
    by_cases hst : status = 200
    · subst hst
      simp only [isFailureOutcome] at h
      cases resp with
      | dictResp f => simp at h
      | textResp p =>
        cases p with
        | parseFail => simp [get_sensitive_data, extract_and_fix_json]
        | parsedNonObj => simp [get_sensitive_data, extract_and_fix_json]
        | parsedObj f => simp at h
      | otherResp => simp [get_sensitive_data]
    · simp [get_sensitive_data, hst]

/-- C2 (witness): the theorem applied at the timeout outcome. -/
theorem c2_detector_failure_returns_empty_witness :
    get_sensitive_data LLMOutcome.timeout = empty_structure :=
  (c2_detector_failure_returns_empty LLMOutcome.timeout rfl).1

/-! ## Claim C5 — the validation policy -/

/-- C5 (counterexample): the claim fails as stated.  A non-sequence,
non-empty value that is a number is replaced by the empty sequence, not
by a one-element sequence: only strings are wrapped
(`if isinstance(value, str)`). -/
theorem c5_validation_counterexample :
    J.truthy (jget [("names", J.jnum 5)] "names") = true ∧
      validate_structure [("names", J.jnum 5)] = empty_structure ∧
      ("names", ["5"]) ∉ validate_structure [("names", J.jnum 5)] := by decide

/-- C5 (amended): the validated CategoryMap's key list equals exactly the
ten fixed categories (so unknown keys are dropped); each present key's
value is validated by `validateValue`, which wraps a non-sequence value
into a one-element sequence only when it is a non-empty *string* and
substitutes an empty sequence for every other non-sequence value, and
filters each sequence to the truthy string/number entries, coercing each
survivor to its string form. -/
theorem c5_validation_amended (data : List (String × J)) :
    ((validate_structure data).map Prod.fst = required_keys) ∧
      (∀ p ∈ validate_structure data, p.1 ∈ required_keys) ∧
      (∀ k, k ∈ required_keys →
        (k, validateValue (jget data k)) ∈ validate_structure data) ∧
      (∀ items, validateValue (J.jarr items)
        = (items.filter (fun it => it.truthy && it.isPrimitive)).map J.pyStr) ∧
      (∀ s, validateValue (J.jstr s) = if s ≠ "" then [s] else []) ∧
      (∀ x, (∀ s, x ≠ J.jstr s) → (∀ items, x ≠ J.jarr items) →
        validateValue x = []) := by
  refine ⟨?_, ?_, ?_, fun items => rfl, fun s => rfl, ?_⟩
  · rfl
  · intro p hp
    unfold validate_structure at hp
    obtain ⟨k, hk, rfl⟩ := List.mem_map.1 hp
    exact hk
  · intro k hk
    exact List.mem_map_of_mem _ hk
  · intro x hxs hxa
    cases x with
    | jstr s => exact absurd rfl (hxs s)
    | jarr items => exact absurd rfl (hxa items)
    | jnull => rfl
    | jbool b => rfl
    | jnum n => rfl
    | jobj f => rfl

/-- C5 (witness): the amended theorem applied at a concrete input. -/
theorem c5_validation_witness :
    ("names", validateValue (jget [("names", J.jstr "Jane")] "names"))
      ∈ validate_structure [("names", J.jstr "Jane")] :=
  (c5_validation_amended [("names", J.jstr "Jane")]).2.2.1 "names" (by decide)

/-! ## Claim C6 — include/exclude overrides -/

/-- C6 (counterexample): the claim fails as stated.  The include loop
guards on `if item and ...`, so an empty-string includeList entry that is
not already present is nevertheless not appended. -/
theorem c6_overrides_counterexample :
    "" ∉ after_exclude ([] : List String) [] ∧
      apply_overrides [] [] [""] = ([] : List String) ∧
      "" ∉ apply_overrides [] [] [""] := by decide

/-- C6 (amended): after the exclusion pass, no surviving literal matches
any excludeList entry case-insensitively; then each *non-empty*
includeList entry `y` not already present by exact (case-sensitive) match
is appended exactly once, applying the same include again when `y` is
already present is a no-op, and a duplicated include entry is appended
only once. -/
theorem c6_overrides_amended (values exclude : List String) (y : String)
    (hy : y ≠ "") :
    (∀ v ∈ after_exclude values exclude, ∀ x ∈ exclude,
        pyLower v ≠ pyLower x) ∧
      (y ∉ after_exclude values exclude →
        apply_overrides values exclude [y] = after_exclude values exclude ++ [y]) ∧
      (y ∈ after_exclude values exclude →
        apply_overrides values exclude [y] = after_exclude values exclude) ∧
      apply_overrides values exclude [y, y] = apply_overrides values exclude [y] := by
  refine ⟨?_, ?_, ?_, ?_⟩
  · intro v hv x hx
    by_cases hex : exclude = []
    · subst hex; exact absurd hx (List.not_mem_nil x)
    · rw [after_exclude, if_neg hex] at hv
      have h2 := (List.mem_filter.1 hv).2
      rw [Bool.not_eq_true'] at h2
      intro heq
      have h3 : (List.map pyLower exclude).contains (pyLower v) = true :=
        List.elem_eq_true_of_mem (heq ▸ List.mem_map_of_mem pyLower hx)
      exact Bool.false_ne_true (h2 ▸ h3)
  · intro hnotin
    unfold apply_overrides
    simp only [List.foldl_cons, List.foldl_nil]
    rw [if_pos ⟨hy, hnotin⟩]
  · intro hin
    unfold apply_overrides
    simp only [List.foldl_cons, List.foldl_nil]
    rw [if_neg (fun h => h.2 hin)]
  · unfold apply_overrides
    simp only [List.foldl_cons, List.foldl_nil]
    by_cases hin : y ∈ after_exclude values exclude
    · have hL : (if y ≠ "" ∧ y ∉ after_exclude values exclude
          then after_exclude values exclude ++ [y]
          else after_exclude values exclude) = after_exclude values exclude :=
        if_neg (fun h => h.2 hin)
      rw [hL]
      exact hL
    · have hL : (if y ≠ "" ∧ y ∉ after_exclude values exclude
          then after_exclude values exclude ++ [y]
          else after_exclude values exclude)
          = after_exclude values exclude ++ [y] :=
        if_pos ⟨hy, hin⟩
      rw [hL, if_neg (fun h => h.2 (by simp))]

/-- C6 (witness): the amended theorem applied at a concrete input. -/
theorem c6_overrides_witness :
    apply_overrides ["Jane"] ["JANE"] ["Bob"]
      = after_exclude ["Jane"] ["JANE"] ++ ["Bob"] :=
  (c6_overrides_amended ["Jane"] ["JANE"] "Bob" (by decide)).2.1 (by decide)

/-! ## Supporting lemmas for the Value Normalizer -/

lemma dedupeKeep_mem (seen l : List String) (v : String) :
    v ∈ dedupeKeep seen l ↔ v ≠ "" ∧ v ∈ l ∧ v ∉ seen := by
  induction l generalizing seen with
  | nil => simp [dedupeKeep]
  | cons a rest ih =>
    by_cases ha : a ≠ "" ∧ a ∉ seen
    · rw [dedupeKeep, if_pos ha]
      simp only [List.mem_cons, ih]
      constructor
      · rintro (rfl | ⟨h1, h2, h3⟩)
        · exact ⟨ha.1, Or.inl rfl, ha.2⟩
        · exact ⟨h1, Or.inr h2, fun hs => h3 (Or.inr hs)⟩
      · rintro ⟨h1, (rfl | h2), h3⟩
        · exact Or.inl rfl
        · by_cases hva : v = a
          · exact Or.inl hva
          · exact Or.inr ⟨h1, h2, fun hs => hs.elim hva h3⟩
    · rw [dedupeKeep, if_neg ha, ih]
      simp only [List.mem_cons]
      constructor
      · rintro ⟨h1, h2, h3⟩
        exact ⟨h1, Or.inr h2, h3⟩
      · rintro ⟨h1, (rfl | h2), h3⟩
        · rcases not_and_or.1 ha with h | h
          · exact absurd (not_not.1 h) h1
          · exact absurd (not_not.1 h) h3
        · exact ⟨h1, h2, h3⟩

lemma dedupeKeep_nodup (seen l : List String) : (dedupeKeep seen l).Nodup := by
  induction l generalizing seen with
  | nil => simp [dedupeKeep]
  | cons a rest ih =>
    by_cases ha : a ≠ "" ∧ a ∉ seen
    · rw [dedupeKeep, if_pos ha]
      refine List.nodup_cons.2 ⟨?_, ih _⟩
      intro hmem
      exact ((dedupeKeep_mem _ _ _).1 hmem).2.2 (List.mem_cons_self a seen)
    · rw [dedupeKeep, if_neg ha]
      exact ih _

lemma dedupeKeep_sublist (seen l : List String) :
    (dedupeKeep seen l).Sublist l := by
  induction l generalizing seen with
  | nil => simp [dedupeKeep]
  | cons a rest ih =>
    by_cases ha : a ≠ "" ∧ a ∉ seen
    · rw [dedupeKeep, if_pos ha]
      exact (ih _).cons₂ a
    · rw [dedupeKeep, if_neg ha]
      exact (ih _).cons a

lemma dedupeKeep_id (l : List String) : ∀ seen, l.Nodup → "" ∉ l →
    (∀ v ∈ l, v ∉ seen) → dedupeKeep seen l = l := by
  induction l with
  | nil => intro seen _ _ _; rfl
  | cons a rest ih =>
    intro seen hn hne hd
    have ha : a ≠ "" ∧ a ∉ seen :=
      ⟨fun h => hne (by rw [← h]; exact List.mem_cons_self a rest),
       hd a (List.mem_cons_self a rest)⟩
    rw [dedupeKeep, if_pos ha]
    congr 1
    apply ih
    · exact (List.nodup_cons.1 hn).2
    · exact fun h => hne (List.mem_cons_of_mem _ h)
    · intro v hv
      simp only [List.mem_cons, not_or]
      exact ⟨fun hva => (List.nodup_cons.1 hn).1 (hva ▸ hv),
        hd v (List.mem_cons_of_mem _ hv)⟩

/-! ## Claim C7 — flatten is deduplicating and idempotent -/

/-- C7 (confirmed): `post_process_sensitive_data` never produces
duplicate entries; its output is exactly the non-empty values of the
concatenated categories, as a subsequence of the concatenation (so
first-seen order is preserved over the fixed category iteration order,
empty values skipped); and flattening a CategoryMap built from its own
output returns that output unchanged (idempotence, in particular up to
set equality). -/
theorem c7_flatten_nodup_idempotent (m : List (String × List String))
    (c : String) :
    (post_process_sensitive_data m).Nodup ∧
      (∀ v, v ∈ post_process_sensitive_data m ↔
        (v ≠ "" ∧ v ∈ (m.map Prod.snd).flatten)) ∧
      (post_process_sensitive_data m).Sublist (m.map Prod.snd).flatten ∧
      post_process_sensitive_data [(c, post_process_sensitive_data m)]
        = post_process_sensitive_data m := by
  refine ⟨dedupeKeep_nodup _ _, fun v => ?_, dedupeKeep_sublist _ _, ?_⟩
  · rw [post_process_sensitive_data, dedupeKeep_mem]
    simp
  · rw [post_process_sensitive_data]
    have hflat : (([(c, post_process_sensitive_data m)]).map Prod.snd).flatten
        = post_process_sensitive_data m := by simp
    rw [hflat]
    apply dedupeKeep_id
    · exact dedupeKeep_nodup _ _
    · intro h
      exact ((dedupeKeep_mem _ _ _).1 h).1 rfl
    · intro v _
      exact List.not_mem_nil v

/-! ## Supporting lemmas for the Redaction Engine -/

lemma redactStep_hits (p : Page) (v : String) (acc : PageResult) :
    redactStep p acc v
      = ⟨acc.highlights ++ (if 2 ≤ v.length then p.searchFor v else []),
         acc.redactions ++ (if 2 ≤ v.length then p.searchFor v else []),
         acc.count + (if 2 ≤ v.length then p.searchFor v else []).length⟩ := by
  unfold redactStep
  by_cases h : v = "" ∨ v.length < 2
  · have h2 : ¬ 2 ≤ v.length := by
      rcases h with h | h
      · subst h; decide
      · omega
    rw [if_pos h, if_neg h2]
    simp
  · have h2 : 2 ≤ v.length := by
      rcases not_or.1 h with ⟨_, h2⟩
      omega
    rw [if_neg h, if_pos h2]

lemma redactPage_go (p : Page) (values : List String) : ∀ acc : PageResult,
    values.foldl (redactStep p) acc
      = ⟨acc.highlights ++ pageHits p values,
         acc.redactions ++ pageHits p values,
         acc.count + (pageHits p values).length⟩ := by
  induction values with
  | nil => intro acc; simp [pageHits]
  | cons v rest ih =>
    intro acc
    rw [List.foldl_cons, ih, redactStep_hits]
    by_cases h2 : 2 ≤ v.length
    · have hf : pageHits p (v :: rest) = p.searchFor v ++ pageHits p rest := by
        simp [pageHits, List.filter_cons, h2]
      rw [if_pos h2, hf]
      simp [List.append_assoc, Nat.add_assoc]
    · have hf : pageHits p (v :: rest) = pageHits p rest := by
        simp [pageHits, List.filter_cons, h2]
      rw [if_neg h2, hf]
      simp

lemma foldl_add_eq_sum (l : List Nat) : ∀ n, l.foldl (· + ·) n = n + l.sum := by
  induction l with
  | nil => intro n; simp
  | cons a t ih =>
    intro n
    rw [List.foldl_cons, ih, List.sum_cons]
    omega

/-! ## Claim C9 — highlight/redaction agreement and totals -/

/-- C9 (confirmed): on each page, the highlight annotations placed on the
preview copy and the pending redaction regions placed on the removal copy
are the same list of bounding regions — one per exact occurrence of each
literal of length at least 2, literals shorter than 2 contributing
nothing — so the per-page highlight count equals the per-page redaction
count, which is the page's recorded counter; and the reported total is
the sum of the per-page counters. -/
theorem c9_redaction_engine_counts (doc : List Page) (values : List String)
    (p : Page) :
    (redactPage p values).highlights = (redactPage p values).redactions ∧
      (redactPage p values).redactions = pageHits p values ∧
      (redactPage p values).count = (pageHits p values).length ∧
      (apply_redactions doc values).1 = doc.map (fun q => redactPage q values) ∧
      (apply_redactions doc values).2
        = (((apply_redactions doc values).1).map PageResult.count).sum := by
  have hrp : redactPage p values
      = ⟨pageHits p values, pageHits p values, (pageHits p values).length⟩ := by
    rw [redactPage, redactPage_go]
    simp
  refine ⟨?_, ?_, ?_, rfl, ?_⟩
  · rw [hrp]
  · rw [hrp]
  · rw [hrp]
  · rw [apply_redactions]
    simp only [foldl_add_eq_sum]
    omega

/-! ## Claim C8 — a detection timeout is conflated with "no data" -/

/-- C8 (code bug, evaluated at the failing input): when the detection
call times out the detector returns the canonical ten-key empty
structure, so the `len(sensitive_data) == 0` guard of `redact_pdf` never
fires; the reply's status is `"no_sensitive_data"` — byte-for-byte the
reply produced when a successful detection genuinely finds nothing — so
detection failure is *not* distinguishable at the protocol level.  The
rest of the claim does hold there: `total_redactions` is never computed
and no output artifacts are created. -/
theorem c8_timeout_conflated_with_no_data :
    (get_sensitive_data LLMOutcome.timeout).length = 10 ∧
      redact_pdf_after_detection (get_sensitive_data LLMOutcome.timeout) []
        = { status := some "no_sensitive_data", error := none,
            totalRedactions := none, artifactsWritten := [] } ∧
      redact_pdf_after_detection (get_sensitive_data LLMOutcome.timeout) []
        = redact_pdf_after_detection
            (get_sensitive_data (LLMOutcome.httpResponse 200
              (RespField.dictResp
                [("names", J.jarr []), ("emails", J.jarr []),
                 ("phones", J.jarr []), ("addresses", J.jarr []),
                 ("ids", J.jarr []), ("cards", J.jarr []),
                 ("dobs", J.jarr []), ("medical", J.jarr []),
                 ("financial", J.jarr []), ("other_pii", J.jarr [])]))) []
  := by decide

/-! ## Claim C10 — text-extractor failure behaviour -/

/-- C10 (counterexample): the claim fails as stated.  On a document whose
second page fails during `get_text`, the wrapped error is raised but the
document is never closed — `get_pdf_text` has no `finally`, so the
resource is not released when extraction fails partway. -/
theorem c10_extractor_counterexample :
    get_pdf_text (PdfSource.document [some "a", Option.none]) false
      = ⟨ExtractOutcome.wrapped, true, false⟩ := by decide

/-- C10 (amended): `get_pdf_text` fails with the not-found error exactly
when the source file does not exist, and then no document is ever opened;
any underlying open/parse failure surfaces as the wrapped
`Exception("Error processing PDF: ...")`; the document is released on
successful extraction, but when extraction fails partway the wrapped
error propagates *without* the document being released. -/
theorem c10_extractor_amended (src : PdfSource) (pc : Bool) :
    ((get_pdf_text src pc).result = ExtractOutcome.notFound
        ↔ src = PdfSource.missing) ∧
      (src = PdfSource.missing → (get_pdf_text src pc).opened = false) ∧
      (∀ pages ts, src = PdfSource.document pages →
        extractPages pages = some ts → (get_pdf_text src pc).closed = true) ∧
      (∀ pages, src = PdfSource.document pages → extractPages pages = none →
        (get_pdf_text src pc).result = ExtractOutcome.wrapped ∧
          (get_pdf_text src pc).opened = true ∧
          (get_pdf_text src pc).closed = false) ∧
      (src = PdfSource.unopenable →
        (get_pdf_text src pc).result = ExtractOutcome.wrapped ∧
          (get_pdf_text src pc).opened = false) := by
  cases src with
  | missing =>
    refine ⟨by simp [get_pdf_text], fun _ => rfl, ?_, ?_, ?_⟩
    · intro pages ts h
      exact absurd h (by simp)
    · intro pages h
      exact absurd h (by simp)
    · intro h
      exact absurd h (by simp)
  | unopenable =>
    refine ⟨by simp [get_pdf_text], ?_, ?_, ?_, fun _ => ⟨rfl, rfl⟩⟩
    · intro h
      exact absurd h (by simp)
    · intro pages ts h
      exact absurd h (by simp)
    · intro pages h
      exact absurd h (by simp)
  | document pages =>
    refine ⟨?_, ?_, ?_, ?_, ?_⟩
    · rcases hE : extractPages pages with _ | ts
      · simp [get_pdf_text, hE]
      · cases pc <;> simp [get_pdf_text, hE]
    · intro h
      exact absurd h (by simp)
    · intro pages' ts h hE
      injection h with h'
      subst h'
      simp [get_pdf_text, hE]
    · intro pages' h hE
      injection h with h'
      subst h'
      simp [get_pdf_text, hE]
    · intro h
      exact absurd h (by simp)

/-- C10 (witness): the amended theorem applied at a concrete input. -/
theorem c10_extractor_witness :
    (get_pdf_text (PdfSource.document [some "x"]) false).closed = true :=
  (c10_extractor_amended (PdfSource.document [some "x"]) false).2.2.1
    [some "x"] ["x"] rfl rfl

end RedactAI
